import Mathlib

/-!
Verification development for the batch model-evaluation engine
(`test_engine.py`).  The Python source is shallowly embedded: pure
string/regex manipulation becomes functions on `List Char` / `String`,
the retrying HTTP call loops become fuel-indexed recursions over an
environment `Nat → attempt outcome` describing what the network does on
each attempt, and fallible operations return `Option`/`Except`.
Wall-clock timing (durations, backoff sleeps, tokens/second) is elided:
messages that interleave a formatted duration carry a fixed placeholder
in its position.  Python `str.lower` / `str.strip` are modelled on the
ASCII range, which covers every character the engine inspects.
-/

/-- Python whitespace class `\s` over ASCII: space, tab, newline,
carriage return, vertical tab, form feed. -/
def pyIsWs (c : Char) : Bool :=
  c == ' ' || c == '\t' || c == '\n' || c == '\r' || c == '\x0b' || c == '\x0c'

/-- Model of Python `str.lower` on a list of characters (ASCII case map,
as performed by `Char.toLower`). -/
def lowerL (l : List Char) : List Char := l.map Char.toLower

/-- Exact prefix test on character lists. -/
def lStartsWith : List Char → List Char → Bool
  | [], _ => true
  | _ :: _, [] => false
  | p :: ps, c :: cs => p == c && lStartsWith ps cs

/-- Case-insensitive prefix test: the pattern is given in lower case and
compared against the lowered input. -/
def startsWithCI (pat s : List Char) : Bool := lStartsWith pat (lowerL s)

/-- Suffix test on character lists. -/
def listEndsWith (pat l : List Char) : Bool := lStartsWith pat.reverse l.reverse

/-- Substring containment (Python `in` on strings), exact. -/
def containsSub (pat : List Char) : List Char → Bool
  | [] => lStartsWith pat []
  | c :: cs => lStartsWith pat (c :: cs) || containsSub pat cs

/-- Python `str.lstrip`. -/
def lstripL (l : List Char) : List Char := l.dropWhile pyIsWs

/-- Python `str.rstrip`. -/
def rstripL (l : List Char) : List Char := (l.reverse.dropWhile pyIsWs).reverse

/-- Python `str.strip`. -/
def stripL (l : List Char) : List Char := rstripL (lstripL l)

/-- Substring containment lifted to `String` (Python `pat in s`). -/
def strContains (s pat : String) : Bool := containsSub pat.data s.data

/-- Python `str.lower` on `String`. -/
def pyLower (s : String) : String := ⟨lowerL s.data⟩

/-! ## TokenUsage (`test_engine.py` lines 40-50) -/

/-- `TokenUsage` dataclass: prompt/completion/total token counters. -/
structure TokenUsage where
  prompt_tokens : Nat := 0
  completion_tokens : Nat := 0
  total_tokens : Nat := 0
deriving Repr, DecidableEq

/-- `TokenUsage.add`: the Python method mutates `self` by componentwise
addition; embedded as the pure merged value. -/
def TokenUsage.add (a b : TokenUsage) : TokenUsage :=
  { prompt_tokens := a.prompt_tokens + b.prompt_tokens
    completion_tokens := a.completion_tokens + b.completion_tokens
    total_tokens := a.total_tokens + b.total_tokens }

/-! ## HTML extraction (`TestEngine.extract_html`, lines 1122-1159)

The three "complete" regex patterns and three "partial" patterns are
embedded directly.  `re.search` with `DOTALL | IGNORECASE` finds the
leftmost match start; non-greedy `.*?` takes the shortest extension at
that start that lets the rest of the pattern match (backtracking over
later closing positions, then over later starts).  The `$` anchor in the
partial patterns is modelled as end-of-string: Python `$` may also match
just before one final newline, but the difference is a single trailing
newline that `str.strip` removes from the returned group either way. -/

def close7 : List Char := "</html>".data

def fenceHtmlNl : List Char := "```html\n".data

def doctype15 : List Char := "<!doctype html>".data

def htmlOpen5 : List Char := "<html".data

def nlFence : List Char := "\n```".data

/-- Tail test for the regex fragment `\s*\n&#96;&#96;&#96;`: zero or more
whitespace characters followed by a newline and a triple backtick. -/
def wsNlFence : List Char → Bool
  | [] => false
  | c :: cs => (c == '\n' && lStartsWith "```".data cs) || (pyIsWs c && wsNlFence cs)

/-- Shortest prefix of the input that ends with a case-insensitive
occurrence of `</html>` whose tail satisfies `checkTail`; returns the
prefix (the non-greedy `.*?</html>` group remainder). -/
def scanClose (checkTail : List Char → Bool) : List Char → Option (List Char)
  | [] => none
  | c :: cs =>
    if startsWithCI close7 (c :: cs) && checkTail ((c :: cs).drop 7)
    then some ((c :: cs).take 7)
    else (scanClose checkTail cs).map (fun g => c :: g)

/-- Pattern `&#96;&#96;&#96;html\n(.*?</html>)\s*\n&#96;&#96;&#96;`:
leftmost fence start whose block closes with `</html>` before the
closing fence. -/
def p1Search : List Char → Option (List Char)
  | [] => none
  | c :: cs =>
    match (if startsWithCI fenceHtmlNl (c :: cs)
           then scanClose wsNlFence ((c :: cs).drop 8) else none) with
    | some g => some g
    | none => p1Search cs

/-- Pattern `&#96;&#96;&#96;\n(<!DOCTYPE html>.*?</html>)\s*\n&#96;&#96;&#96;`. -/
def p2Search : List Char → Option (List Char)
  | [] => none
  | c :: cs =>
    match (if startsWithCI "```\n".data (c :: cs) &&
              startsWithCI doctype15 ((c :: cs).drop 4)
           then (scanClose wsNlFence ((c :: cs).drop 19)).map
                  (fun g => ((c :: cs).drop 4).take 15 ++ g)
           else none) with
    | some g => some g
    | none => p2Search cs

/-- Pattern `(<!DOCTYPE html>.*?</html>)`: bare full document. -/
def p3Search : List Char → Option (List Char)
  | [] => none
  | c :: cs =>
    match (if startsWithCI doctype15 (c :: cs)
           then (scanClose (fun _ => true) ((c :: cs).drop 15)).map
                  (fun g => (c :: cs).take 15 ++ g)
           else none) with
    | some g => some g
    | none => p3Search cs

/-- Characters up to (excluding) the first `\n&#96;&#96;&#96;` fence, or
the whole input when no fence follows (the `(?:\n&#96;&#96;&#96;|$)`
alternative). -/
def takeUntilFence : List Char → List Char
  | [] => []
  | c :: cs => if lStartsWith nlFence (c :: cs) then [] else c :: takeUntilFence cs

/-- Partial pattern `&#96;&#96;&#96;html\n(<!DOCTYPE html>.*?)(?:\n&#96;&#96;&#96;|$)`. -/
def p4Search : List Char → Option (List Char)
  | [] => none
  | c :: cs =>
    if startsWithCI fenceHtmlNl (c :: cs) && startsWithCI doctype15 ((c :: cs).drop 8)
    then some (takeUntilFence ((c :: cs).drop 8))
    else p4Search cs

/-- Partial pattern `&#96;&#96;&#96;html\n(<html.*?)(?:\n&#96;&#96;&#96;|$)`. -/
def p5Search : List Char → Option (List Char)
  | [] => none
  | c :: cs =>
    if startsWithCI fenceHtmlNl (c :: cs) && startsWithCI htmlOpen5 ((c :: cs).drop 8)
    then some (takeUntilFence ((c :: cs).drop 8))
    else p5Search cs

/-- Partial pattern `(<!DOCTYPE html>.*?)$`: first doctype to the end. -/
def p6Search : List Char → Option (List Char)
  | [] => none
  | c :: cs =>
    if startsWithCI doctype15 (c :: cs) then some (c :: cs) else p6Search cs

/-- First matching "complete" pattern, in the source priority order. -/
def firstComplete (content : List Char) : Option (List Char) :=
  match p1Search content with
  | some g => some g
  | none =>
    match p2Search content with
    | some g => some g
    | none => p3Search content

/-- First matching "partial" pattern, in the source priority order. -/
def firstTruncated (content : List Char) : Option (List Char) :=
  match p4Search content with
  | some g => some g
  | none =>
    match p5Search content with
    | some g => some g
    | none => p6Search content

/-- The source expression `html.lower().rstrip().endswith("</html>")`. -/
def isCompleteHtml (h : List Char) : Bool := listEndsWith close7 (rstripL (lowerL h))

/-- `TestEngine.extract_html`: returns the extracted (stripped) HTML, or
`none`, together with the completeness flag. -/
def extract_html (content : List Char) : Option (List Char) × Bool :=
  match firstComplete content with
  | some g => (some (stripL g), true)
  | none =>
    match firstTruncated content with
    | some g =>
      let html := stripL g
      (some html, isCompleteHtml html)
    | none => (none, false)

/-! ## Streaming SSE collection (`_call_api_streaming`, lines 318-359)

A `data:` line whose JSON parses is a chunk; its delta fields are given
with Python truthiness folded in: a `String` field is the fragment (empty
means absent or empty, which the source treats alike), `finishReason` is
`some s` exactly when the wire value is present and truthy, `usage` is
`some u` exactly when a truthy usage object is present. -/

structure SSEChunk where
  contentDelta : String := ""
  reasoningDelta : String := ""
  finishReason : Option String := none
  usage : Option TokenUsage := none
deriving Repr, DecidableEq

/-- One line of the event stream as the reader classifies it. -/
inductive SSELine where
  | data (c : SSEChunk)
  | done
  | malformed
  | blank
  | other
deriving Repr, DecidableEq

/-- Accumulated state of the streaming read loop. -/
structure CollectState where
  content : String := ""
  reasoning : String := ""
  usage : TokenUsage := {}
  finish : Option String := none
deriving Repr, DecidableEq

/-- Effect of one parsed chunk on the collection state (lines 336-356). -/
def collectStep (st : CollectState) (c : SSEChunk) : CollectState :=
  let content := if c.contentDelta == "" then st.content else st.content ++ c.contentDelta
  let reasoning := if c.reasoningDelta == "" then st.reasoning else st.reasoning ++ c.reasoningDelta
  let finish := match c.finishReason with
    | some s => some s
    | none => st.finish
  let usage := match c.usage with
    | some u => u
    | none => st.usage
  { content := content, reasoning := reasoning, usage := usage, finish := finish }

/-- The streaming read loop: fold chunks until `data: [DONE]` or end of
stream; malformed, blank and non-`data:` lines are skipped. -/
def collectSSE : List SSELine → CollectState → CollectState
  | [], st => st
  | .done :: _, st => st
  | .data c :: rest, st => collectSSE rest (collectStep st c)
  | .malformed :: rest, st => collectSSE rest st
  | .blank :: rest, st => collectSSE rest st
  | .other :: rest, st => collectSSE rest st

/-- Fields of the dictionary a successful call returns (timing fields
elided; the nested response JSON is represented by the message content
and reasoning it carries). -/
structure ApiResult where
  content : String
  reasoning : String
  token_usage : TokenUsage
  retry_count : Nat
  is_incomplete : Bool
  finish_reason : Option String
deriving Repr, DecidableEq

/-- Post-stream finalization (lines 364-422): substitute reasoning for
empty content, estimate tokens when no usage was observed, flag
truncation when the finish reason is `length`. -/
def finalizeStreaming (st : CollectState) (retries : Nat) : ApiResult :=
  let content := if st.content == "" && st.reasoning != "" then st.reasoning else st.content
  let usage :=
    if st.usage.total_tokens == 0 then
      let est := (content.length + st.reasoning.length) / 4
      { prompt_tokens := st.usage.prompt_tokens, completion_tokens := est, total_tokens := est }
    else st.usage
  { content := content
    reasoning := st.reasoning
    token_usage := usage
    retry_count := retries
    is_incomplete := st.finish == some "length"
    finish_reason := st.finish }

/-- What the network does on one streaming attempt: either a response
with a status code and an event stream, or one of the exception classes
the source handles (lines 424-488).  The carried string is the exception
text `str(e)`. -/
inductive HttpAttempt where
  | response (status : Nat) (lines : List SSELine)
  | timeout (msg : String)
  | chunkedError (msg : String)
  | connectionError (msg : String)
  | otherError (msg : String)
deriving Repr

/-- Outcome of one attempt inside the retry loop. -/
inductive StepOut where
  | ok (r : ApiResult)
  | transient (msg : String)
  | fatal (msg : String)
deriving Repr, DecidableEq

def MAX_RETRIES : Nat := 3

def REQUEST_TIMEOUT : Nat := 1200

/-- Status codes retried by the engine (and by the session adapter). -/
def retryableStatus (status : Nat) : Bool :=
  status == 429 || status == 500 || status == 502 || status == 503 || status == 504

/-- Error descriptions of lines 453-459. -/
def httpDesc (status : Nat) : String :=
  if status == 429 then "请求过于频繁"
  else if status == 500 then "服务器内部错误"
  else if status == 502 then "网关错误"
  else if status == 503 then "服务暂时不可用"
  else if status == 504 then "网关超时"
  else "HTTP错误"

/-- One streaming attempt (the body of the `for attempt` loop, lines
295-488).  `raise_for_status` raises `HTTPError` exactly for 4xx/5xx. -/
def streamStep (a : HttpAttempt) (retries : Nat) : StepOut :=
  match a with
  | .response status lines =>
    if 400 ≤ status && status < 600 then
      if retryableStatus status then
        .transient ("HTTP " ++ toString status ++ " (" ++ httpDesc status ++ "): ")
      else
        .fatal ("API调用失败: HTTP " ++ toString status ++ " - ")
    else
      .ok (finalizeStreaming (collectSSE lines {}) retries)
  | .timeout m => .transient ("请求超时 (" ++ toString REQUEST_TIMEOUT ++ "秒): " ++ m)
  | .chunkedError m => .transient ("响应传输中断: " ++ m)
  | .connectionError m =>
    if strContains (pyLower m) "ended prematurely" || strContains (pyLower m) "incomplete" then
      .transient ("响应传输中断: " ++ m)
    else
      .transient ("连接错误: " ++ m)
  | .otherError m =>
    if strContains (pyLower m) "prematurely" || strContains (pyLower m) "incomplete" ||
       strContains (pyLower m) "broken pipe" || strContains (pyLower m) "reset by peer" then
      .transient ("网络传输中断: " ++ m)
    else
      .transient ("未知错误: " ++ m)

/-- The exception text raised when the streaming retry budget is
exhausted (line 502; the formatted wall-clock duration is replaced by a
placeholder). -/
def streamExhaustedMsg (lastExc : String) : String :=
  "API调用失败（已重试" ++ toString MAX_RETRIES ++ "次，总耗时？秒）: " ++ lastExc

/-- The streaming retry loop.  Returns the call result together with the
number of HTTP attempts the loop issued.  `n` is the index of the next
attempt, `lastExc` the text of the last recorded exception, `retries`
the running `total_retry_count`. -/
def streamLoop (env : Nat → HttpAttempt) (n : Nat) (lastExc : String)
    (retries : Nat) : Nat → Except String ApiResult × Nat
  | 0 => (.error (streamExhaustedMsg lastExc), 0)
  | fuel + 1 =>
    match streamStep (env n) retries with
    | .ok r => (.ok r, 1)
    | .fatal m => (.error m, 1)
    | .transient m =>
      let rest := streamLoop env (n + 1) m (retries + 1) fuel
      (rest.1, rest.2 + 1)

/-- `TestEngine._call_api_streaming` as a function of the per-attempt
network behaviour. -/
def call_api_streaming (env : Nat → HttpAttempt) : Except String ApiResult × Nat :=
  streamLoop env 0 "" 0 (MAX_RETRIES + 1)

/-! ## Non-streaming fallback (`_call_api_non_streaming`, lines 504-680) -/

/-- Decoded JSON body of a non-streaming response (shape fields the
source reads, with truthiness folded in as for `SSEChunk`). -/
structure NSBody where
  hasChoices : Bool := true
  content : String := ""
  reasoning : String := ""
  finishReason : Option String := none
  usage : Option TokenUsage := none
deriving Repr, DecidableEq

/-- One non-streaming attempt outcome; `response status none` is a body
that fails to parse as JSON (`json.JSONDecodeError`, retryable). -/
inductive NSAttempt where
  | response (status : Nat) (body : Option NSBody)
  | timeout (msg : String)
  | otherError (msg : String)
deriving Repr

/-- Lines 556-618: extract content/reasoning/finish reason, substitute
reasoning for empty content, take or estimate usage. -/
def finalizeNonStreaming (b : NSBody) (retries : Nat) : ApiResult :=
  let content0 := if b.hasChoices then b.content else ""
  let reasoning := if b.hasChoices then b.reasoning else ""
  let finish := if b.hasChoices then b.finishReason else none
  let content := if content0 == "" && reasoning != "" then reasoning else content0
  let usage0 := match b.usage with
    | some u => u
    | none => ({} : TokenUsage)
  let usage :=
    if usage0.total_tokens == 0 then
      let est := (content.length + reasoning.length) / 4
      { prompt_tokens := usage0.prompt_tokens, completion_tokens := est, total_tokens := est }
    else usage0
  { content := content
    reasoning := reasoning
    token_usage := usage
    retry_count := retries
    is_incomplete := finish == some "length"
    finish_reason := finish }

/-- One non-streaming attempt (lines 535-668). -/
def nsStep (a : NSAttempt) (retries : Nat) : StepOut :=
  match a with
  | .response status body =>
    if 400 ≤ status && status < 600 then
      if retryableStatus status then
        .transient ("HTTP " ++ toString status ++ " (" ++ httpDesc status ++ "): ")
      else
        .fatal ("API调用失败: HTTP " ++ toString status ++ " - ")
    else
      match body with
      | some b => .ok (finalizeNonStreaming b retries)
      | none => .transient "响应JSON解析失败: "
  | .timeout m => .transient ("请求超时: " ++ m)
  | .otherError m => .transient ("未知错误: " ++ m)

/-- Exhaustion message of the non-streaming ladder (line 680). -/
def nsExhaustedMsg (lastExc : String) : String :=
  "非流式API调用失败（已重试" ++ toString MAX_RETRIES ++ "次，总耗时？秒）: " ++ lastExc

/-- The non-streaming retry loop, with its own attempt counter. -/
def nsLoop (env : Nat → NSAttempt) (n : Nat) (lastExc : String)
    (retries : Nat) : Nat → Except String ApiResult × Nat
  | 0 => (.error (nsExhaustedMsg lastExc), 0)
  | fuel + 1 =>
    match nsStep (env n) retries with
    | .ok r => (.ok r, 1)
    | .fatal m => (.error m, 1)
    | .transient m =>
      let rest := nsLoop env (n + 1) m (retries + 1) fuel
      (rest.1, rest.2 + 1)

/-- `TestEngine._call_api_non_streaming`. -/
def call_api_non_streaming (env : Nat → NSAttempt) : Except String ApiResult × Nat :=
  nsLoop env 0 "" 0 (MAX_RETRIES + 1)

/-- Lines 237-243: classify a streaming failure as a reason to fall back
to the non-streaming path. -/
def shouldTryNonStream (e : String) : Bool :=
  let s := pyLower e
  (strContains s "stream" && strContains s "not") ||
  strContains s "sse" ||
  strContains s "event-stream" ||
  (strContains s "chunk" && strContains s "invalid") ||
  strContains s "已重试"

/-- The combined failure message of line 251 (`str(...)[:100]` is the
Python slice, `String.take` here). -/
def combinedFailureMsg (e e2 : String) : String :=
  "流式和非流式响应均失败。流式错误: " ++ e.take 100 ++ "; 非流式错误: " ++ e2.take 100

/-- `TestEngine.call_api_with_retry` (lines 215-254): streaming first,
then — when the failure is classified as stream-related — the
non-streaming ladder; otherwise the original error is re-raised.  The
second component counts all HTTP attempts issued. -/
def call_api_with_retry (envS : Nat → HttpAttempt) (envNS : Nat → NSAttempt) :
    Except String ApiResult × Nat :=
  match call_api_streaming envS with
  | (.ok r, n) => (.ok r, n)
  | (.error e, n) =>
    if shouldTryNonStream e then
      match call_api_non_streaming envNS with
      | (.ok r, m) => (.ok r, n + m)
      | (.error e2, m) => (.error (combinedFailureMsg e e2), n + m)
    else (.error e, n)

/-! ## Continuation requests (`continue_conversation`, lines 702-836) -/

/-- The dictionary `continue_conversation` returns (duration elided to a
natural number; the source's failure records carry literal `0`). -/
structure ContResult where
  content : String
  token_usage : TokenUsage
  duration_seconds : Nat
  finish_reason : Option String
  success : Bool
deriving Repr, DecidableEq

/-- The uniform failure record returned on lines 812-818, 822-828 and
830-836. -/
def contFail : ContResult :=
  { content := ""
    token_usage := {}
    duration_seconds := 0
    finish_reason := some "error"
    success := false }

/-- What one continuation attempt does on the wire: a response (status
plus event stream), a transport interruption (`ChunkedEncodingError` or
`ConnectionError`, retried twice), or any other exception (returned as a
failure immediately). -/
inductive ContAttempt where
  | response (status : Nat) (lines : List SSELine)
  | transportError (msg : String)
  | otherError (msg : String)
deriving Repr

/-- Collection state of the continuation stream: here
`reasoning_content` deltas are appended into the same content buffer
(lines 775-779). -/
structure ContCollectState where
  content : String := ""
  usage : TokenUsage := {}
  finish : Option String := none
deriving Repr, DecidableEq

/-- One chunk of a continuation stream. -/
def contCollectStep (st : ContCollectState) (c : SSEChunk) : ContCollectState :=
  let content := if c.contentDelta == "" then st.content else st.content ++ c.contentDelta
  let content := if c.reasoningDelta == "" then content else content ++ c.reasoningDelta
  let finish := match c.finishReason with
    | some s => some s
    | none => st.finish
  let usage := match c.usage with
    | some u => u
    | none => st.usage
  { content := content, usage := usage, finish := finish }

/-- The continuation stream read loop (lines 759-791). -/
def contCollect : List SSELine → ContCollectState → ContCollectState
  | [], st => st
  | .done :: _, st => st
  | .data c :: rest, st => contCollect rest (contCollectStep st c)
  | .malformed :: rest, st => contCollect rest st
  | .blank :: rest, st => contCollect rest st
  | .other :: rest, st => contCollect rest st

/-- The attempt loop of `continue_conversation`: `max_retries = 2`, so
up to three attempts; a transport error on a non-final attempt sleeps
and retries, on the final attempt returns the failure record; any other
exception (including `raise_for_status` on a 4xx/5xx, which the generic
handler catches) returns the failure record at once. -/
def contAttemptLoop (env : Nat → ContAttempt) (n : Nat) : Nat → ContResult
  | 0 => contFail
  | fuel + 1 =>
    match env n with
    | .response status lines =>
      if 400 ≤ status && status < 600 then contFail
      else
        let st := contCollect lines {}
        { content := st.content
          token_usage := st.usage
          duration_seconds := 0
          finish_reason := st.finish
          success := true }
    | .transportError _ =>
      if fuel == 0 then contFail else contAttemptLoop env (n + 1) fuel
    | .otherError _ => contFail

/-- `TestEngine.continue_conversation` as a function of the per-attempt
network behaviour. -/
def continue_conversation (env : Nat → ContAttempt) : ContResult :=
  contAttemptLoop env 0 3

/-! ## The continuation protocol (`run_single_text_test`, lines 1039-1093)

The loop is driven by the results of the successive
`continue_conversation` calls, abstracted as `env : Nat → ContResult`
(round `k` of the protocol receives `env k`). -/

def CONTINUE_CONVERSATION_MAX : Nat := 3

/-- Completeness of the HTML extracted from accumulated content: the
second component of `extract_html`. -/
def htmlDone (s : String) : Bool := (extract_html s.data).2

/-- The `for round_num in range(CONTINUE_CONVERSATION_MAX)` loop.
Returns the number of continuation requests issued and the final
accumulated content.  A round that fails or returns empty content breaks
without appending; otherwise the round's content is appended, the loop
breaks if the accumulated HTML became complete, continues if the round
was again truncated (`finish_reason == "length"`), and breaks on any
other finish reason. -/
def contLoop (env : Nat → ContResult) (combined : String) (n : Nat) : Nat → Nat × String
  | 0 => (n, combined)
  | fuel + 1 =>
    let c := env n
    if !c.success || c.content == "" then (n + 1, combined)
    else
      let combined2 := combined ++ "\n" ++ c.content
      if htmlDone combined2 then (n + 1, combined2)
      else if c.finish_reason == some "length" then contLoop env combined2 (n + 1) fuel
      else (n + 1, combined2)

/-- The continuation protocol applied to an initial (truncated) content. -/
def continuationRun (env : Nat → ContResult) (initial : String) : Nat × String :=
  contLoop env initial 0 CONTINUE_CONVERSATION_MAX

/-- Content accumulated after `k` rounds have appended their output. -/
def accumContent (env : Nat → ContResult) (initial : String) : Nat → String
  | 0 => initial
  | k + 1 => accumContent env initial k ++ "\n" ++ (env k).content

/-- The loop runs round `n` with state `accumContent n` exactly when
every earlier round succeeded with non-empty content, left the HTML
still incomplete, and was itself truncated. -/
def ReachesRound (env : Nat → ContResult) (initial : String) (n : Nat) : Prop :=
  ∀ m, m < n →
    (env m).success = true ∧ (env m).content ≠ "" ∧
    htmlDone (accumContent env initial (m + 1)) = false ∧
    (env m).finish_reason = some "length"

/-! ## Image extraction (`extract_and_save_image`, lines 1383-1410) -/

/-- The character class `[A-Za-z0-9+/=]` of the payload group. -/
def isB64Char (c : Char) : Bool :=
  ('A' ≤ c && c ≤ 'Z') || ('a' ≤ c && c ≤ 'z') || ('0' ≤ c && c ≤ '9') ||
  c == '+' || c == '/' || c == '='

/-- Value of a base64 data character. -/
def b64Val (c : Char) : Option Nat :=
  if 'A' ≤ c && c ≤ 'Z' then some (c.toNat - 65)
  else if 'a' ≤ c && c ≤ 'z' then some (c.toNat - 97 + 26)
  else if '0' ≤ c && c ≤ '9' then some (c.toNat - 48 + 52)
  else if c == '+' then some 62
  else if c == '/' then some 63
  else none

/-- Model of `base64.b64decode` on the alphabet the regex admits: groups
of four characters, with `=` only as final padding; a length that is not
a multiple of four or misplaced padding is a decoding error (Python
raises `binascii.Error`, which the source catches). -/
def b64decode : List Char → Option (List Nat)
  | [] => some []
  | c1 :: c2 :: c3 :: c4 :: rest =>
    match b64Val c1, b64Val c2 with
    | some v1, some v2 =>
      if c3 == '=' then
        if c4 == '=' && rest.isEmpty then some [v1 * 4 + v2 / 16] else none
      else
        match b64Val c3 with
        | some v3 =>
          if c4 == '=' then
            if rest.isEmpty then some [v1 * 4 + v2 / 16, v2 % 16 * 16 + v3 / 4] else none
          else
            match b64Val c4 with
            | some v4 =>
              (b64decode rest).map
                (fun bs => (v1 * 4 + v2 / 16) :: (v2 % 16 * 16 + v3 / 4) :: (v3 % 4 * 64 + v4) :: bs)
            | none => none
        | none => none
    | _, _ => none
  | _ => none

/-- Greedy `[A-Za-z0-9+/=]+` run. -/
def b64Run (l : List Char) : List Char := l.takeWhile isB64Char

/-- Try `fmt;base64,PAYLOAD` at the current position; returns the
format, the payload and the remaining input after the payload. -/
def tryFmtPayload (fmt : String) (rest : List Char) : Option (String × List Char × List Char) :=
  if lStartsWith (fmt ++ ";base64,").data rest then
    let p := b64Run (rest.drop (fmt.length + 8))
    if p.isEmpty then none
    else some (fmt, p, rest.drop (fmt.length + 8 + p.length))
  else none

/-- Match `data:image/(jpeg|png|jpg);base64,([A-Za-z0-9+/=]+)` at the
current position (alternation tried left to right, as `re` does). -/
def parseDataImageAt (s : List Char) : Option (String × List Char × List Char) :=
  if lStartsWith "data:image/".data s then
    match tryFmtPayload "jpeg" (s.drop 11) with
    | some r => some r
    | none =>
      match tryFmtPayload "png" (s.drop 11) with
      | some r => some r
      | none => tryFmtPayload "jpg" (s.drop 11)
  else none

/-- `re.search` of the plain data-URL pattern: leftmost match. -/
def searchDataImage : List Char → Option (String × List Char × List Char)
  | [] => none
  | c :: cs =>
    match parseDataImageAt (c :: cs) with
    | some r => some r
    | none => searchDataImage cs

/-- Scan for `](data:image/...)` after a `![`; the non-greedy `.*?`
advances only over non-newline characters (no `DOTALL` on this
pattern). -/
def mdTail : List Char → Option (String × List Char)
  | [] => none
  | c :: cs =>
    match (if lStartsWith "](".data (c :: cs) then
             match parseDataImageAt ((c :: cs).drop 2) with
             | some (fmt, p, rest) =>
               if lStartsWith ")".data rest then some (fmt, p) else none
             | none => none
           else none) with
    | some r => some r
    | none => if c == '\n' then none else mdTail cs

/-- `re.search` of the Markdown image pattern. -/
def searchMdImage : List Char → Option (String × List Char)
  | [] => none
  | c :: cs =>
    match (if lStartsWith "![".data (c :: cs) then mdTail ((c :: cs).drop 2) else none) with
    | some r => some r
    | none => searchMdImage cs

/-- Extension normalization of line 1401. -/
def normExt (fmt : String) : String := if fmt == "jpeg" then "jpg" else fmt

/-- `TestEngine.extract_and_save_image`: returns the file name the image
is saved under, or `none`.  A pattern whose payload fails to decode is
skipped (the `except` swallows the error) and the next pattern is
tried. -/
def extract_and_save_image (content : List Char) (case_id case_name : String) :
    Option String :=
  match (match searchDataImage content with
         | some (fmt, p, _) =>
           (b64decode p).map (fun _ => case_id ++ "_" ++ case_name ++ "." ++ normExt fmt)
         | none => none) with
  | some path => some path
  | none =>
    match searchMdImage content with
    | some (fmt, p) =>
      (b64decode p).map (fun _ => case_id ++ "_" ++ case_name ++ "." ++ normExt fmt)
    | none => none

/-- The fields of the image case record that depend on extraction
(`run_single_image_test`, lines 1331-1362): a case that reached this
point has `success = true` regardless of extraction. -/
structure ImageCaseOutcome where
  has_image : Bool
  success : Bool
  image_file : Option String
deriving Repr, DecidableEq

/-- Extraction-dependent part of `run_single_image_test`. -/
def run_single_image_outcome (content : List Char) (case_id case_name : String) :
    ImageCaseOutcome :=
  let p := extract_and_save_image content case_id case_name
  { has_image := p.isSome, success := true, image_file := p }

/-! ## Category statistics (`run_text_tests`, lines 838-953) -/

/-- Fields of a successful case result that the statistics fold reads. -/
structure CaseOk where
  token_usage : TokenUsage := {}
  duration_seconds : Nat := 0
  gotHtml : Bool := false
  gotTxt : Bool := false
  retry_count : Nat := 0
  is_incomplete : Bool := false
deriving Repr, DecidableEq

/-- The counters of `TestStats` that the run mutates (averages and
wall-clock fields, computed from these after the loop, are elided along
with real time). -/
structure TestStats where
  total_cases : Nat := 0
  success_count : Nat := 0
  failed_count : Nat := 0
  html_extracted_count : Nat := 0
  no_html_count : Nat := 0
  total_tokens : TokenUsage := {}
  sum_case_time_seconds : Nat := 0
  timeout_count : Nat := 0
  retry_count : Nat := 0
  incomplete_count : Nat := 0
deriving Repr, DecidableEq

/-- Processing of one completed future (lines 862-915): a result
increments the success counters, an exception increments `failed_count`
(and `timeout_count` when the message indicates a timeout) and appends a
failure record. -/
def statsStep (st : TestStats) (o : Except String CaseOk) : TestStats :=
  match o with
  | .ok r =>
    { st with
      success_count := st.success_count + 1
      total_tokens := st.total_tokens.add r.token_usage
      sum_case_time_seconds := st.sum_case_time_seconds + r.duration_seconds
      html_extracted_count :=
        if r.gotHtml then st.html_extracted_count + 1 else st.html_extracted_count
      no_html_count :=
        if !r.gotHtml && r.gotTxt then st.no_html_count + 1 else st.no_html_count
      retry_count := st.retry_count + r.retry_count
      incomplete_count :=
        if r.is_incomplete then st.incomplete_count + 1 else st.incomplete_count }
  | .error msg =>
    { st with
      failed_count := st.failed_count + 1
      timeout_count :=
        if strContains msg "超时" || strContains (pyLower msg) "timeout" then
          st.timeout_count + 1
        else st.timeout_count }

/-- `run_text_tests` with `is_running` never cleared: every loaded case
is dispatched and yields exactly one completed future, processed in
completion order; `outcomes` is that completion-ordered list. -/
def run_text_tests_stats (outcomes : List (Except String CaseOk)) : TestStats :=
  outcomes.foldl statsStep { total_cases := outcomes.length }

/-! ## Concrete witness inputs -/

def linesC4 : List SSELine :=
  [.data { contentDelta := "<html>" }, .data { finishReason := some "length" }, .done]

def envC4 : Nat → HttpAttempt := fun _ => .response 200 linesC4

/-- A continuation stub that always succeeds with non-empty, truncated
output that never completes the HTML. -/
def envC2 : Nat → ContResult := fun _ =>
  { content := "still going"
    token_usage := {}
    duration_seconds := 0
    finish_reason := some "length"
    success := true }

def envC9 : Nat → ContAttempt := fun _ => .transportError "reset"

/-- A streaming attempt that fails with a transient error: one of the
retried exception classes, or a response whose status is in the
retryable whitelist. -/
def IsTransientS (a : HttpAttempt) : Prop :=
  match a with
  | .response status _ => 400 ≤ status ∧ status < 600 ∧ retryableStatus status = true
  | _ => True

/-- A non-streaming attempt that fails with a transient error (a
retryable status, an unparsable body, a timeout or another exception). -/
def IsTransientNS (a : NSAttempt) : Prop :=
  match a with
  | .response status body =>
    (400 ≤ status ∧ status < 600 ∧ retryableStatus status = true) ∨
    (¬(400 ≤ status ∧ status < 600) ∧ body = none)
  | _ => True

def envC10S : Nat → HttpAttempt := fun _ => .connectionError "connection reset by peer"

def envC10NS : Nat → NSAttempt := fun _ => .response 503 none

def envC1S : Nat → HttpAttempt := fun _ => .timeout "read timed out"

def envC1NS : Nat → NSAttempt := fun _ => .timeout "read timed out"

/-! ## General lemmas about the string helpers -/

theorem lStartsWith_iff (p : List Char) : ∀ l, lStartsWith p l = true ↔ ∃ t, l = p ++ t := by
  induction p with
  | nil =>
    intro l
    simp [lStartsWith]
  | cons x xs ih =>
    intro l
    cases l with
    | nil =>
      simp [lStartsWith]
    | cons c cs =>
      simp only [lStartsWith, Bool.and_eq_true, beq_iff_eq, ih]
      constructor
      · rintro ⟨rfl, t, rfl⟩
        exact ⟨t, rfl⟩
      · rintro ⟨t, ht⟩
        injection ht with h1 h2
        exact ⟨h1.symm, t, h2⟩

theorem lStartsWith_self_append (p t : List Char) : lStartsWith p (p ++ t) = true :=
  (lStartsWith_iff p (p ++ t)).mpr ⟨t, rfl⟩

theorem lStartsWith_append_right (p l t : List Char) (h : lStartsWith p l = true) :
    lStartsWith p (l ++ t) = true := by
  obtain ⟨u, rfl⟩ := (lStartsWith_iff p l).mp h
  rw [List.append_assoc]
  exact lStartsWith_self_append p (u ++ t)

theorem containsSub_append_left (pat a b : List Char) (h : containsSub pat a = true) :
    containsSub pat (a ++ b) = true := by
  induction a with
  | nil =>
    simp only [containsSub] at h
    obtain ⟨t, ht⟩ := (lStartsWith_iff pat []).mp h
    have : pat = [] := by
      cases pat with
      | nil => rfl
      | cons x xs => simp at ht
    subst this
    cases b with
    | nil => simpa [containsSub] using h
    | cons c cs => simp [containsSub, lStartsWith]
  | cons c cs ih =>
    simp only [containsSub, Bool.or_eq_true] at h ⊢
    rcases h with h | h
    · exact Or.inl (lStartsWith_append_right pat (c :: cs) b h)
    · exact Or.inr (ih h)

theorem listEndsWith_append (pat a : List Char) : listEndsWith pat (a ++ pat) = true := by
  unfold listEndsWith
  rw [List.reverse_append]
  exact lStartsWith_self_append pat.reverse a.reverse

/-- ASCII whitespace is fixed by `Char.toLower`. -/
theorem toLower_of_ws (c : Char) (h : pyIsWs c = true) : Char.toLower c = c := by
  simp only [pyIsWs, Bool.or_eq_true, beq_iff_eq] at h
  rcases h with ((((rfl | rfl) | rfl) | rfl) | rfl) | rfl <;> decide

/-- Dropping a trailing-whitespace run leaves a list whose reversed head
is not whitespace untouched. -/
theorem rstripL_append_of_rev (x w : List Char) (c : Char) (cs : List Char)
    (hw : w.reverse = c :: cs) (hc : pyIsWs c = false) : rstripL (x ++ w) = x ++ w := by
  unfold rstripL
  rw [List.reverse_append, hw, List.cons_append, List.dropWhile, hc]
  rw [← List.cons_append, ← hw, ← List.reverse_append, List.reverse_reverse]

/-- Dropping a leading-whitespace run from a list ending in `w` (whose
head is not whitespace) yields a list still ending in `w`. -/
theorem lstripL_append (x w : List Char) (hd : Char) (tl : List Char)
    (hw : w = hd :: tl) (hhd : pyIsWs hd = false) :
    ∃ x2, lstripL (x ++ w) = x2 ++ w := by
  induction x with
  | nil =>
    refine ⟨[], ?_⟩
    simp only [List.nil_append, lstripL, hw, List.dropWhile, hhd]
  | cons a as ih =>
    obtain ⟨x2, hx2⟩ := ih
    by_cases ha : pyIsWs a = true
    · refine ⟨x2, ?_⟩
      simpa [lstripL, List.dropWhile, ha] using hx2
    · have ha2 : pyIsWs a = false := by simpa using ha
      refine ⟨a :: as, ?_⟩
      simp [lstripL, List.dropWhile, ha2]

/-! ## Claim theorems -/

/-- C8: `TokenUsage` addition is commutative and associative; merging
the prompt/completion/total triples (10,20,30) and (1,2,3) yields
(11,22,33) in either order. -/
theorem tokenUsage_add_comm_assoc :
    (∀ a b : TokenUsage, a.add b = b.add a) ∧
    (∀ a b c : TokenUsage, (a.add b).add c = a.add (b.add c)) ∧
    TokenUsage.add ⟨10, 20, 30⟩ ⟨1, 2, 3⟩ = ⟨11, 22, 33⟩ ∧
    TokenUsage.add ⟨1, 2, 3⟩ ⟨10, 20, 30⟩ = ⟨11, 22, 33⟩ := by
  refine ⟨?_, ?_, rfl, rfl⟩
  · intro a b
    simp [TokenUsage.add, Nat.add_comm]
  · intro a b c
    simp [TokenUsage.add, Nat.add_assoc]

theorem statsStep_total (st : TestStats) (o : Except String CaseOk) :
    (statsStep st o).total_cases = st.total_cases := by
  cases o <;> rfl

theorem statsFold_total (l : List (Except String CaseOk)) :
    ∀ st : TestStats, (l.foldl statsStep st).total_cases = st.total_cases := by
  induction l with
  | nil => intro st; rfl
  | cons o rest ih =>
    intro st
    rw [List.foldl_cons, ih, statsStep_total]

theorem statsFold_success_failed (l : List (Except String CaseOk)) :
    ∀ st : TestStats,
      (l.foldl statsStep st).success_count + (l.foldl statsStep st).failed_count =
        st.success_count + st.failed_count + l.length := by
  induction l with
  | nil => intro st; simp
  | cons o rest ih =>
    intro st
    rw [List.foldl_cons, ih]
    cases o <;> simp [statsStep] <;> omega

/-- C6: after a category run in which `is_running` is never cleared,
every dispatched case increments exactly one of the two counters, so
`success_count + failed_count = total_cases` and `total_cases` is the
number of loaded cases. -/
theorem stats_invariant (outcomes : List (Except String CaseOk)) :
    (run_text_tests_stats outcomes).total_cases = outcomes.length ∧
    (run_text_tests_stats outcomes).success_count +
      (run_text_tests_stats outcomes).failed_count = outcomes.length := by
  unfold run_text_tests_stats
  refine ⟨statsFold_total outcomes _, ?_⟩
  rw [statsFold_success_failed outcomes]
  simp

/-- C4: a first attempt that succeeds with `finish_reason == "length"`
is returned at once — exactly one HTTP attempt, `retry_count = 0`, and
the outcome is flagged `is_incomplete = true` rather than retried. -/
theorem no_retry_on_truncation (env : Nat → HttpAttempt) (lines : List SSELine)
    (h0 : env 0 = .response 200 lines)
    (hfin : (collectSSE lines {}).finish = some "length") :
    call_api_streaming env =
      (.ok (finalizeStreaming (collectSSE lines {}) 0), 1) ∧
    (finalizeStreaming (collectSSE lines {}) 0).is_incomplete = true ∧
    (finalizeStreaming (collectSSE lines {}) 0).retry_count = 0 := by
  refine ⟨?_, ?_, rfl⟩
  · show streamLoop env 0 "" 0 4 = _
    rw [show (4 : Nat) = 3 + 1 from rfl]
    simp only [streamLoop, h0, streamStep]
    norm_num
  · simp [finalizeStreaming, hfin]

theorem no_retry_on_truncation_witness :
    call_api_streaming envC4 =
      (.ok (finalizeStreaming (collectSSE linesC4 {}) 0), 1) ∧
    (finalizeStreaming (collectSSE linesC4 {}) 0).is_incomplete = true ∧
    (finalizeStreaming (collectSSE linesC4 {}) 0).retry_count = 0 :=
  no_retry_on_truncation envC4 linesC4 rfl (by decide)

/-- C5 counterexample: with collected content `"abcd"`, reasoning
`"efgh"` and no usage observed, the streaming path estimates
`completion_tokens = (4+4)/4 = 2`, not `len(content)/4 = 1`: the source
divides the length of content *plus* reasoning by 4, not the length of
the collected content alone. -/
theorem token_estimate_counterexample :
    (finalizeStreaming
        { content := "abcd", reasoning := "efgh", usage := {}, finish := some "stop" }
        0).token_usage.completion_tokens = 2 ∧
    ¬ ((finalizeStreaming
        { content := "abcd", reasoning := "efgh", usage := {}, finish := some "stop" }
        0).token_usage.completion_tokens = "abcd".length / 4) := by
  decide

/-- C5 amended: when the accumulated `total_tokens` is 0, both paths
estimate `completion_tokens` as `(len(content) + len(reasoning)) // 4` —
content taken after the reasoning-for-empty-content substitution, so
reasoning is counted twice in that case — and set `total_tokens` to the
same estimate. -/
theorem token_estimate_amended (st : CollectState) (b : NSBody) (r r2 : Nat)
    (hs : st.usage.total_tokens = 0)
    (hb : b.usage = none ∨ ∃ u, b.usage = some u ∧ u.total_tokens = 0)
    (hc : b.hasChoices = true) :
    ((finalizeStreaming st r).token_usage.completion_tokens =
        ((if st.content == "" && st.reasoning != "" then st.reasoning
          else st.content).length + st.reasoning.length) / 4 ∧
      (finalizeStreaming st r).token_usage.total_tokens =
        (finalizeStreaming st r).token_usage.completion_tokens) ∧
    ((finalizeNonStreaming b r2).token_usage.completion_tokens =
        ((if b.content == "" && b.reasoning != "" then b.reasoning
          else b.content).length + b.reasoning.length) / 4 ∧
      (finalizeNonStreaming b r2).token_usage.total_tokens =
        (finalizeNonStreaming b r2).token_usage.completion_tokens) := by
  constructor
  · simp [finalizeStreaming, hs]
  · rcases hb with hb | ⟨u, hb, hu⟩
    · simp [finalizeNonStreaming, hb, hc]
    · simp [finalizeNonStreaming, hb, hc, hu]

theorem token_estimate_amended_witness :
    (finalizeStreaming { content := "", reasoning := "abcdefgh", usage := {}, finish := none }
        0).token_usage.completion_tokens =
      ((if ("" : String) == "" && ("abcdefgh" : String) != "" then ("abcdefgh" : String)
        else "").length + ("abcdefgh" : String).length) / 4 :=
  ((token_estimate_amended
      { content := "", reasoning := "abcdefgh", usage := {}, finish := none }
      {} 0 0 rfl (Or.inl rfl) rfl).1).1

theorem contAttemptLoop_fail_shape (env : Nat → ContAttempt) :
    ∀ fuel n, contAttemptLoop env n fuel = contFail ∨
      (contAttemptLoop env n fuel).success = true := by
  intro fuel
  induction fuel with
  | zero => intro n; exact Or.inl rfl
  | succ f ih =>
    intro n
    simp only [contAttemptLoop]
    cases env n with
    | response status lines =>
      by_cases h : 400 ≤ status && status < 600
      · simp [h]
      · simp [h]
    | transportError m =>
      by_cases h : f == 0
      · simp [h]
      · simpa [h] using ih (n + 1)
    | otherError m => exact Or.inl rfl

/-- C9: `continue_conversation` always returns a result record, and any
failing return is exactly the uniform failure record: `success = false`,
empty content, all-zero token usage, duration 0 and finish reason
`"error"` — so a failing round contributes nothing to the caller's
accumulated content. -/
theorem continue_conversation_failure (env : Nat → ContAttempt)
    (h : (continue_conversation env).success = false) :
    (continue_conversation env).content = "" ∧
    (continue_conversation env).token_usage = { prompt_tokens := 0, completion_tokens := 0, total_tokens := 0 } ∧
    (continue_conversation env).duration_seconds = 0 ∧
    (continue_conversation env).finish_reason = some "error" := by
  rcases contAttemptLoop_fail_shape env 3 0 with hf | hs
  · unfold continue_conversation
    rw [hf]
    exact ⟨rfl, rfl, rfl, rfl⟩
  · exact absurd (h.symm.trans hs) (by decide)

theorem continue_conversation_failure_witness :
    (continue_conversation envC9).content = "" ∧
    (continue_conversation envC9).token_usage = { prompt_tokens := 0, completion_tokens := 0, total_tokens := 0 } ∧
    (continue_conversation envC9).duration_seconds = 0 ∧
    (continue_conversation envC9).finish_reason = some "error" :=
  continue_conversation_failure envC9 (by decide)

theorem contLoop_le (env : Nat → ContResult) :
    ∀ fuel combined n, (contLoop env combined n fuel).1 ≤ n + fuel := by
  intro fuel
  induction fuel with
  | zero => intro combined n; simp [contLoop]
  | succ f ih =>
    intro combined n
    simp only [contLoop]
    by_cases h1 : (!(env n).success || (env n).content == "") = true
    · simp only [h1, if_true]
      omega
    · simp only [h1]
      rw [if_neg (by simp : ¬(false = true))]
      by_cases h2 : htmlDone (combined ++ "\n" ++ (env n).content) = true
      · rw [if_pos h2]
        omega
      · rw [if_neg h2]
        by_cases h3 : ((env n).finish_reason == some "length") = true
        · rw [if_pos h3]
          have := ih (combined ++ "\n" ++ (env n).content) (n + 1)
          omega
        · rw [if_neg h3]
          omega

theorem contLoop_step (env : Nat → ContResult) (combined : String) (n fuel : Nat)
    (hs : (env n).success = true) (hne : (env n).content ≠ "")
    (hd : htmlDone (combined ++ "\n" ++ (env n).content) = false)
    (hl : (env n).finish_reason = some "length") :
    contLoop env combined n (fuel + 1) =
      contLoop env (combined ++ "\n" ++ (env n).content) (n + 1) fuel := by
  have h1 : (!(env n).success || (env n).content == "") = false := by
    simp [hs, hne]
  simp only [contLoop, h1]
  rw [if_neg (by simp), if_neg (by simp [hd]), if_pos (by simp [hl])]

theorem contLoop_stop (env : Nat → ContResult) (combined : String) (n fuel : Nat)
    (h : (env n).success = false ∨ (env n).content = "" ∨
         htmlDone (combined ++ "\n" ++ (env n).content) = true ∨
         (env n).finish_reason ≠ some "length") :
    (contLoop env combined n (fuel + 1)).1 = n + 1 := by
  simp only [contLoop]
  by_cases h1 : (!(env n).success || (env n).content == "") = true
  · rw [if_pos h1]
  · rw [if_neg h1]
    have h1b : (env n).success = true ∧ (env n).content ≠ "" := by
      simpa [not_or, Bool.not_eq_true'] using h1
    by_cases h2 : htmlDone (combined ++ "\n" ++ (env n).content) = true
    · rw [if_pos h2]
    · rw [if_neg h2]
      by_cases h3 : ((env n).finish_reason == some "length") = true
      · exfalso
        rcases h with h | h | h | h
        · rw [h1b.1] at h
          simp at h
        · exact h1b.2 h
        · exact h2 h
        · exact h (by simpa using h3)
      · rw [if_neg h3]

/-- C2: the continuation protocol issues at most
`CONTINUE_CONVERSATION_MAX = 3` rounds; when every round succeeds with
non-empty content, is again truncated (`finish_reason == "length"`) and
never makes the HTML complete, it runs exactly 3 rounds; and it stops
with round `n` (having issued `n + 1` requests) as soon as that round
fails, returns empty content, makes the accumulated HTML complete, or
ends with a finish reason other than `"length"`. -/
theorem continuation_termination :
    (∀ env initial, (continuationRun env initial).1 ≤ 3) ∧
    (∀ env initial, ReachesRound env initial 3 → (continuationRun env initial).1 = 3) ∧
    (∀ env initial n, n < 3 → ReachesRound env initial n →
      ((env n).success = false ∨ (env n).content = "" ∨
       htmlDone (accumContent env initial (n + 1)) = true ∨
       (env n).finish_reason ≠ some "length") →
      (continuationRun env initial).1 = n + 1) := by
  refine ⟨?_, ?_, ?_⟩
  · intro env initial
    simpa using contLoop_le env 3 initial 0
  · intro env initial hr
    have h0 := hr 0 (by omega)
    have h1 := hr 1 (by omega)
    have h2 := hr 2 (by omega)
    unfold continuationRun CONTINUE_CONVERSATION_MAX
    rw [show (3 : Nat) = 2 + 1 from rfl,
        contLoop_step env initial 0 2 h0.1 h0.2.1
          (by simpa [accumContent] using h0.2.2.1) h0.2.2.2]
    rw [show (2 : Nat) = 1 + 1 from rfl,
        contLoop_step env _ 1 1 h1.1 h1.2.1
          (by simpa [accumContent] using h1.2.2.1) h1.2.2.2]
    rw [show (1 : Nat) = 0 + 1 from rfl,
        contLoop_step env _ 2 0 h2.1 h2.2.1
          (by simpa [accumContent] using h2.2.2.1) h2.2.2.2]
    rfl
  · intro env initial n hn hr hstop
    unfold continuationRun CONTINUE_CONVERSATION_MAX
    interval_cases n
    · exact contLoop_stop env initial 0 2
        (by simpa [accumContent] using hstop)
    · have h0 := hr 0 (by omega)
      rw [show (3 : Nat) = 2 + 1 from rfl,
          contLoop_step env initial 0 2 h0.1 h0.2.1
            (by simpa [accumContent] using h0.2.2.1) h0.2.2.2]
      exact contLoop_stop env _ 1 1
        (by simpa [accumContent] using hstop)
    · have h0 := hr 0 (by omega)
      have h1 := hr 1 (by omega)
      rw [show (3 : Nat) = 2 + 1 from rfl,
          contLoop_step env initial 0 2 h0.1 h0.2.1
            (by simpa [accumContent] using h0.2.2.1) h0.2.2.2]
      rw [show (2 : Nat) = 1 + 1 from rfl,
          contLoop_step env _ 1 1 h1.1 h1.2.1
            (by simpa [accumContent] using h1.2.2.1) h1.2.2.2]
      exact contLoop_stop env _ 2 0
        (by simpa [accumContent] using hstop)

theorem continuation_termination_witness :
    (continuationRun envC2 "<html>").1 = 3 ∧ (continuationRun envC2 "<html>").1 ≤ 3 :=
  ⟨continuation_termination.2.1 envC2 "<html>"
     (by
       intro m hm
       refine ⟨rfl, by intro hcon; simp [envC2] at hcon, ?_, rfl⟩
       interval_cases m <;> decide),
   continuation_termination.1 envC2 "<html>"⟩

theorem streamStep_transient (a : HttpAttempt) (r : Nat) (h : IsTransientS a) :
    ∃ m, streamStep a r = .transient m := by
  cases a with
  | response status lines =>
    obtain ⟨h1, h2, h3⟩ := h
    refine ⟨"HTTP " ++ toString status ++ " (" ++ httpDesc status ++ "): ", ?_⟩
    simp only [streamStep]
    rw [if_pos (by simp [h1, h2]), if_pos h3]
  | timeout m => exact ⟨_, rfl⟩
  | chunkedError m => exact ⟨_, rfl⟩
  | connectionError m =>
    simp only [streamStep]
    split <;> exact ⟨_, rfl⟩
  | otherError m =>
    simp only [streamStep]
    split <;> exact ⟨_, rfl⟩

theorem nsStep_transient (a : NSAttempt) (r : Nat) (h : IsTransientNS a) :
    ∃ m, nsStep a r = .transient m := by
  cases a with
  | response status body =>
    rcases h with ⟨h1, h2, h3⟩ | ⟨h1, h2⟩
    · refine ⟨"HTTP " ++ toString status ++ " (" ++ httpDesc status ++ "): ", ?_⟩
      simp only [nsStep]
      rw [if_pos (by simp [h1, h2]), if_pos h3]
    · subst h2
      refine ⟨"响应JSON解析失败: ", ?_⟩
      simp only [nsStep]
      rw [if_neg (by simpa using h1)]
  | timeout m => exact ⟨_, rfl⟩
  | otherError m => exact ⟨_, rfl⟩

theorem streamLoop_allTransient (env : Nat → HttpAttempt)
    (hS : ∀ n, IsTransientS (env n)) :
    ∀ fuel n last r, ∃ m,
      streamLoop env n last r fuel = (.error (streamExhaustedMsg m), fuel) := by
  intro fuel
  induction fuel with
  | zero => intro n last r; exact ⟨last, rfl⟩
  | succ f ih =>
    intro n last r
    obtain ⟨m0, hm0⟩ := streamStep_transient (env n) r (hS n)
    obtain ⟨m1, hm1⟩ := ih (n + 1) m0 (r + 1)
    refine ⟨m1, ?_⟩
    simp only [streamLoop, hm0, hm1]

theorem nsLoop_allTransient (env : Nat → NSAttempt)
    (hNS : ∀ n, IsTransientNS (env n)) :
    ∀ fuel n last r, ∃ m,
      nsLoop env n last r fuel = (.error (nsExhaustedMsg m), fuel) := by
  intro fuel
  induction fuel with
  | zero => intro n last r; exact ⟨last, rfl⟩
  | succ f ih =>
    intro n last r
    obtain ⟨m0, hm0⟩ := nsStep_transient (env n) r (hNS n)
    obtain ⟨m1, hm1⟩ := ih (n + 1) m0 (r + 1)
    refine ⟨m1, ?_⟩
    simp only [nsLoop, hm0, hm1]

/-- The exhausted-retries message always carries the retried marker. -/
theorem marker_in_streamExhausted (m : String) :
    strContains (pyLower (streamExhaustedMsg m)) "已重试" = true := by
  show containsSub "已重试".data (lowerL ((streamExhaustedMsg m).data)) = true
  have hdata : (streamExhaustedMsg m).data =
      ("API调用失败（已重试" ++ toString MAX_RETRIES ++ "次，总耗时？秒）: ").data ++ m.data := rfl
  rw [hdata]
  unfold lowerL
  rw [List.map_append]
  exact containsSub_append_left _ _ _ (by decide)

theorem shouldTryNonStream_of_exhausted (m : String) :
    shouldTryNonStream (streamExhaustedMsg m) = true := by
  simp [shouldTryNonStream, marker_in_streamExhausted]

/-- C10 (implicit): when the streaming ladder exhausts its budget its
exception carries the retried marker, which `call_api_with_retry`
classifies as a reason to fall back; the non-streaming ladder then runs
with its own `MAX_RETRIES + 1` attempts, so a call whose every attempt
fails transiently issues `2 * (MAX_RETRIES + 1) = 8` HTTP attempts and
fails with the combined two-path error message. -/
theorem streaming_fallback_combined (envS : Nat → HttpAttempt) (envNS : Nat → NSAttempt)
    (hS : ∀ n, IsTransientS (envS n)) (hNS : ∀ n, IsTransientNS (envNS n)) :
    ∃ m m2,
      call_api_streaming envS = (.error (streamExhaustedMsg m), MAX_RETRIES + 1) ∧
      strContains (pyLower (streamExhaustedMsg m)) "已重试" = true ∧
      shouldTryNonStream (streamExhaustedMsg m) = true ∧
      call_api_non_streaming envNS = (.error (nsExhaustedMsg m2), MAX_RETRIES + 1) ∧
      call_api_with_retry envS envNS =
        (.error (combinedFailureMsg (streamExhaustedMsg m) (nsExhaustedMsg m2)),
         2 * (MAX_RETRIES + 1)) := by
  obtain ⟨m, hm⟩ := streamLoop_allTransient envS hS (MAX_RETRIES + 1) 0 "" 0
  obtain ⟨m2, hm2⟩ := nsLoop_allTransient envNS hNS (MAX_RETRIES + 1) 0 "" 0
  refine ⟨m, m2, hm, marker_in_streamExhausted m, shouldTryNonStream_of_exhausted m, hm2, ?_⟩
  unfold call_api_with_retry
  rw [show call_api_streaming envS = streamLoop envS 0 "" 0 (MAX_RETRIES + 1) from rfl, hm]
  simp only [shouldTryNonStream_of_exhausted m, if_true]
  rw [show call_api_non_streaming envNS = nsLoop envNS 0 "" 0 (MAX_RETRIES + 1) from rfl, hm2]
  rfl

theorem streaming_fallback_combined_witness :
    ∃ m m2,
      call_api_streaming envC10S = (.error (streamExhaustedMsg m), MAX_RETRIES + 1) ∧
      strContains (pyLower (streamExhaustedMsg m)) "已重试" = true ∧
      shouldTryNonStream (streamExhaustedMsg m) = true ∧
      call_api_non_streaming envC10NS = (.error (nsExhaustedMsg m2), MAX_RETRIES + 1) ∧
      call_api_with_retry envC10S envC10NS =
        (.error (combinedFailureMsg (streamExhaustedMsg m) (nsExhaustedMsg m2)),
         2 * (MAX_RETRIES + 1)) :=
  streaming_fallback_combined envC10S envC10NS (fun _ => trivial)
    (fun _ => Or.inl ⟨by norm_num, by norm_num, rfl⟩)

/-- C1 counterexample: with every HTTP attempt on both paths failing
with a timeout (a transient error), the invoker issues 8 attempts — not
4 — before surfacing the case failure, because exhausting the streaming
ladder triggers the non-streaming fallback ladder. -/
theorem retry_bound_counterexample :
    (call_api_with_retry envC1S envC1NS).2 = 8 ∧
    (call_api_with_retry envC1S envC1NS).2 ≠ 4 ∧
    (call_api_with_retry envC1S envC1NS).1 =
      .error (combinedFailureMsg
        (streamExhaustedMsg "请求超时 (1200秒): read timed out")
        (nsExhaustedMsg "请求超时: read timed out")) := by
  exact ⟨by decide, by decide, rfl⟩

/-- C1 amended: each retry ladder makes exactly `MAX_RETRIES + 1 = 4`
attempts for an always-transiently-failing call and then raises its
exhausted-retries exception; because that exception triggers the
non-streaming fallback, the invoker as a whole makes
`2 * (MAX_RETRIES + 1) = 8` attempts before surfacing the case
failure. -/
theorem retry_bound_amended (envS : Nat → HttpAttempt) (envNS : Nat → NSAttempt)
    (hS : ∀ n, IsTransientS (envS n)) (hNS : ∀ n, IsTransientNS (envNS n)) :
    (call_api_streaming envS).2 = MAX_RETRIES + 1 ∧
    (∃ m, (call_api_streaming envS).1 = .error (streamExhaustedMsg m)) ∧
    (call_api_non_streaming envNS).2 = MAX_RETRIES + 1 ∧
    (call_api_with_retry envS envNS).2 = 2 * (MAX_RETRIES + 1) ∧
    (∃ e, (call_api_with_retry envS envNS).1 = .error e) := by
  obtain ⟨m, hm⟩ := streamLoop_allTransient envS hS (MAX_RETRIES + 1) 0 "" 0
  obtain ⟨m2, hm2⟩ := nsLoop_allTransient envNS hNS (MAX_RETRIES + 1) 0 "" 0
  have hcall : call_api_streaming envS = (.error (streamExhaustedMsg m), MAX_RETRIES + 1) := hm
  have hns : call_api_non_streaming envNS = (.error (nsExhaustedMsg m2), MAX_RETRIES + 1) := hm2
  have hfull : call_api_with_retry envS envNS =
      (.error (combinedFailureMsg (streamExhaustedMsg m) (nsExhaustedMsg m2)),
       2 * (MAX_RETRIES + 1)) := by
    unfold call_api_with_retry
    rw [show call_api_streaming envS = streamLoop envS 0 "" 0 (MAX_RETRIES + 1) from rfl, hm]
    simp only [shouldTryNonStream_of_exhausted m, if_true]
    rw [show call_api_non_streaming envNS = nsLoop envNS 0 "" 0 (MAX_RETRIES + 1) from rfl, hm2]
    rfl
  rw [hcall, hns, hfull]
  exact ⟨rfl, ⟨m, rfl⟩, rfl, rfl, ⟨_, rfl⟩⟩

theorem retry_bound_amended_witness :
    (call_api_streaming envC1S).2 = MAX_RETRIES + 1 ∧
    (∃ m, (call_api_streaming envC1S).1 = .error (streamExhaustedMsg m)) ∧
    (call_api_non_streaming envC1NS).2 = MAX_RETRIES + 1 ∧
    (call_api_with_retry envC1S envC1NS).2 = 2 * (MAX_RETRIES + 1) ∧
    (∃ e, (call_api_with_retry envC1S envC1NS).1 = .error e) :=
  retry_bound_amended envC1S envC1NS (fun _ => trivial) (fun _ => trivial)

/-- C7: image extraction is total — when the located data-URL payload
decodes, a file is written whose extension is normalized from the
declared MIME subtype (`jpeg` becomes `jpg`) and the case records
`has_image = true`; when decoding fails for every located payload, no
path is returned, `has_image = false`, and the case still has
`success = true` (no exception escapes: the decode error is swallowed
and the next pattern tried). -/
theorem image_extraction_behavior (content : List Char) (cid cname : String) :
    (∀ fmt p rest bs, searchDataImage content = some (fmt, p, rest) →
       b64decode p = some bs →
       extract_and_save_image content cid cname =
         some (cid ++ "_" ++ cname ++ "." ++ normExt fmt) ∧
       (run_single_image_outcome content cid cname).has_image = true) ∧
    ((∀ fmt p rest, searchDataImage content = some (fmt, p, rest) → b64decode p = none) →
     (∀ fmt p, searchMdImage content = some (fmt, p) → b64decode p = none) →
       extract_and_save_image content cid cname = none ∧
       (run_single_image_outcome content cid cname).has_image = false ∧
       (run_single_image_outcome content cid cname).success = true) ∧
    normExt "jpeg" = "jpg" ∧ normExt "png" = "png" ∧ normExt "jpg" = "jpg" ∧
    (run_single_image_outcome content cid cname).success = true := by
  have hnone : (∀ fmt p rest, searchDataImage content = some (fmt, p, rest) →
        b64decode p = none) →
      (∀ fmt p, searchMdImage content = some (fmt, p) → b64decode p = none) →
      extract_and_save_image content cid cname = none := by
    intro hA hB
    unfold extract_and_save_image
    rcases hsd : searchDataImage content with _ | ⟨fmt, p, rest⟩
    · rcases hmd : searchMdImage content with _ | ⟨fmt2, p2⟩
      · rfl
      · simp [hB fmt2 p2 hmd]
    · simp only [hA fmt p rest hsd, Option.map_none']
      rcases hmd : searchMdImage content with _ | ⟨fmt2, p2⟩
      · rfl
      · simp [hB fmt2 p2 hmd]
  refine ⟨?_, ?_, rfl, rfl, rfl, rfl⟩
  · intro fmt p rest bs h1 h2
    have hex : extract_and_save_image content cid cname =
        some (cid ++ "_" ++ cname ++ "." ++ normExt fmt) := by
      unfold extract_and_save_image
      simp only [h1, h2, Option.map_some']
    refine ⟨hex, ?_⟩
    unfold run_single_image_outcome
    rw [hex]
    rfl
  · intro hA hB
    have hz := hnone hA hB
    refine ⟨hz, ?_, rfl⟩
    unfold run_single_image_outcome
    rw [hz]
    rfl

theorem image_extraction_behavior_witness :
    extract_and_save_image "data:image/png;base64,AAAA".data "C01" "pic" =
      some ("C01" ++ "_" ++ "pic" ++ "." ++ normExt "png") ∧
    (run_single_image_outcome "xdata:image/png;base64,AAA".data "C01" "pic").has_image = false ∧
    (run_single_image_outcome "xdata:image/png;base64,AAA".data "C01" "pic").success = true :=
  ⟨((image_extraction_behavior "data:image/png;base64,AAAA".data "C01" "pic").1
      "png" "AAAA".data [] [0, 0, 0] (by decide) (by decide)).1,
   (((image_extraction_behavior "xdata:image/png;base64,AAA".data "C01" "pic").2.1
      (by
        intro fmt p rest h
        rw [show searchDataImage "xdata:image/png;base64,AAA".data =
              some ("png", "AAA".data, []) from by decide] at h
        injection h with h1
        injection h1 with hf hpr
        injection hpr with hp hr
        subst hp
        decide)
      (by
        intro fmt p h
        rw [show searchMdImage "xdata:image/png;base64,AAA".data = none from by decide] at h
        exact absurd h (by simp))).2.1),
   (((image_extraction_behavior "xdata:image/png;base64,AAA".data "C01" "pic").2.1
      (by
        intro fmt p rest h
        rw [show searchDataImage "xdata:image/png;base64,AAA".data =
              some ("png", "AAA".data, []) from by decide] at h
        injection h with h1
        injection h1 with hf hpr
        injection hpr with hp hr
        subst hp
        decide)
      (by
        intro fmt p h
        rw [show searchMdImage "xdata:image/png;base64,AAA".data = none from by decide] at h
        exact absurd h (by simp))).2.2)⟩

theorem scanClose_decomp (ct : List Char → Bool) :
    ∀ l g, scanClose ct l = some g → ∃ x w, g = x ++ w ∧ lowerL w = close7 := by
  intro l
  induction l with
  | nil => intro g hg; exact absurd hg (by simp [scanClose])
  | cons c cs ih =>
    intro g hg
    rw [scanClose] at hg
    by_cases hb : (startsWithCI close7 (c :: cs) && ct ((c :: cs).drop 7)) = true
    · rw [if_pos hb] at hg
      injection hg with hg
      obtain ⟨hsw, _⟩ := Bool.and_eq_true_iff.mp hb
      obtain ⟨t, ht⟩ := (lStartsWith_iff close7 (lowerL (c :: cs))).mp hsw
      refine ⟨[], (c :: cs).take 7, by rw [← hg]; rfl, ?_⟩
      show lowerL ((c :: cs).take 7) = close7
      have hmt : lowerL ((c :: cs).take 7) = (lowerL (c :: cs)).take 7 := by
        unfold lowerL
        exact List.map_take Char.toLower (c :: cs) 7
      rw [hmt, ht, show (7 : Nat) = close7.length from rfl, List.take_left]
    · rw [if_neg hb] at hg
      obtain ⟨g0, hg0, hcons⟩ := Option.map_eq_some'.mp hg
      obtain ⟨x, w, hxw, hw⟩ := ih g0 hg0
      exact ⟨c :: x, w, by rw [← hcons, hxw]; rfl, hw⟩

theorem p1Search_decomp :
    ∀ l g, p1Search l = some g → ∃ x w, g = x ++ w ∧ lowerL w = close7 := by
  intro l
  induction l with
  | nil => intro g hg; exact absurd hg (by simp [p1Search])
  | cons c cs ih =>
    intro g hg
    rw [p1Search] at hg
    by_cases hb : startsWithCI fenceHtmlNl (c :: cs) = true
    · rw [if_pos hb] at hg
      cases hsc : scanClose wsNlFence ((c :: cs).drop 8) with
      | some g0 =>
        rw [hsc] at hg
        injection hg with hg
        rw [← hg]
        exact scanClose_decomp wsNlFence _ g0 hsc
      | none =>
        rw [hsc] at hg
        exact ih g hg
    · rw [if_neg hb] at hg
      exact ih g hg

theorem p2Search_decomp :
    ∀ l g, p2Search l = some g → ∃ x w, g = x ++ w ∧ lowerL w = close7 := by
  intro l
  induction l with
  | nil => intro g hg; exact absurd hg (by simp [p2Search])
  | cons c cs ih =>
    intro g hg
    rw [p2Search] at hg
    by_cases hb : (startsWithCI "```\n".data (c :: cs) &&
        startsWithCI doctype15 ((c :: cs).drop 4)) = true
    · rw [if_pos hb] at hg
      cases hsc : scanClose wsNlFence ((c :: cs).drop 19) with
      | some g0 =>
        rw [hsc] at hg
        simp only [Option.map_some'] at hg
        injection hg with hg
        obtain ⟨x, w, hxw, hw⟩ := scanClose_decomp wsNlFence _ g0 hsc
        exact ⟨((c :: cs).drop 4).take 15 ++ x, w,
          by rw [← hg, hxw, List.append_assoc], hw⟩
      | none =>
        rw [hsc] at hg
        exact ih g hg
    · rw [if_neg hb] at hg
      exact ih g hg

theorem p3Search_decomp :
    ∀ l g, p3Search l = some g → ∃ x w, g = x ++ w ∧ lowerL w = close7 := by
  intro l
  induction l with
  | nil => intro g hg; exact absurd hg (by simp [p3Search])
  | cons c cs ih =>
    intro g hg
    rw [p3Search] at hg
    by_cases hb : startsWithCI doctype15 (c :: cs) = true
    · rw [if_pos hb] at hg
      cases hsc : scanClose (fun _ => true) ((c :: cs).drop 15) with
      | some g0 =>
        rw [hsc] at hg
        simp only [Option.map_some'] at hg
        injection hg with hg
        obtain ⟨x, w, hxw, hw⟩ := scanClose_decomp (fun _ => true) _ g0 hsc
        exact ⟨(c :: cs).take 15 ++ x, w,
          by rw [← hg, hxw, List.append_assoc], hw⟩
      | none =>
        rw [hsc] at hg
        exact ih g hg
    · rw [if_neg hb] at hg
      exact ih g hg

theorem firstComplete_decomp (content g : List Char) (hg : firstComplete content = some g) :
    ∃ x w, g = x ++ w ∧ lowerL w = close7 := by
  unfold firstComplete at hg
  cases h1 : p1Search content with
  | some g1 =>
    rw [h1] at hg
    injection hg with hg
    rw [← hg]
    exact p1Search_decomp content g1 h1
  | none =>
    rw [h1] at hg
    cases h2 : p2Search content with
    | some g2 =>
      rw [h2] at hg
      injection hg with hg
      rw [← hg]
      exact p2Search_decomp content g2 h2
    | none =>
      rw [h2] at hg
      exact p3Search_decomp content g hg

/-- A group that ends with a (case-variant of) `</html>` still satisfies
the completeness predicate after `str.strip`. -/
theorem isCompleteHtml_strip (x w : List Char) (hw : lowerL w = close7) :
    isCompleteHtml (stripL (x ++ w)) = true := by
  cases w with
  | nil => exact absurd hw (by decide)
  | cons hd tl =>
    have hhd : Char.toLower hd = '<' := by
      have : Char.toLower hd :: lowerL tl = close7 := hw
      rw [show close7 = '<' :: "/html>".data from rfl] at this
      exact (List.cons.injEq _ _ _ _ ▸ this).1
    have hhdws : pyIsWs hd = false := by
      by_contra hcon
      have h1 : pyIsWs hd = true := by simpa using hcon
      have h2 := toLower_of_ws hd h1
      rw [h2] at hhd
      rw [hhd] at h1
      exact absurd h1 (by decide)
    obtain ⟨x2, hx2⟩ := lstripL_append x (hd :: tl) hd tl rfl hhdws
    have hrev : ∃ cR csR, (hd :: tl).reverse = cR :: csR ∧ Char.toLower cR = '>' := by
      have hlr : lowerL ((hd :: tl).reverse) = close7.reverse := by
        unfold lowerL
        rw [List.map_reverse]
        rw [show (hd :: tl).map Char.toLower = close7 from hw]
      cases hcase : (hd :: tl).reverse with
      | nil => exact absurd (List.reverse_eq_nil_iff.mp hcase) (by simp)
      | cons cR csR =>
        rw [hcase] at hlr
        refine ⟨cR, csR, rfl, ?_⟩
        have : Char.toLower cR :: lowerL csR = close7.reverse := hlr
        rw [show close7.reverse = '>' :: ">lmth/<".data.tail from by decide] at this
        exact (List.cons.injEq _ _ _ _ ▸ this).1
    obtain ⟨cR, csR, hcrev, hcR⟩ := hrev
    have hcRws : pyIsWs cR = false := by
      by_contra hcon
      have h1 : pyIsWs cR = true := by simpa using hcon
      have h2 := toLower_of_ws cR h1
      rw [h2] at hcR
      rw [hcR] at h1
      exact absurd h1 (by decide)
    have hstrip : stripL (x ++ (hd :: tl)) = x2 ++ (hd :: tl) := by
      unfold stripL
      rw [hx2]
      exact rstripL_append_of_rev x2 (hd :: tl) cR csR hcrev hcRws
    rw [hstrip]
    unfold isCompleteHtml
    have hlow : lowerL (x2 ++ (hd :: tl)) = lowerL x2 ++ close7 := by
      unfold lowerL
      rw [List.map_append]
      rw [show (hd :: tl).map Char.toLower = close7 from hw]
    rw [hlow]
    have hrs : rstripL (lowerL x2 ++ close7) = lowerL x2 ++ close7 := by
      refine rstripL_append_of_rev (lowerL x2) close7 '>' ">lmth/<".data.tail ?_ (by decide)
      decide
    rw [hrs]
    exact listEndsWith_append close7 (lowerL x2)

/-- C3: whenever `extract_html` returns an HTML artifact together with a
completeness flag, the flag equals the predicate "the artifact,
lower-cased and right-trimmed, ends with `</html>`". -/
theorem completeness_predicate (content h : List Char)
    (hh : (extract_html content).1 = some h) :
    (extract_html content).2 = isCompleteHtml h := by
  unfold extract_html at hh ⊢
  cases hfc : firstComplete content with
  | some g =>
    simp only [hfc] at hh ⊢
    obtain ⟨x, w, hxw, hw⟩ := firstComplete_decomp content g hfc
    injection hh with hh2
    rw [← hh2, hxw]
    exact (isCompleteHtml_strip x w hw).symm
  | none =>
    simp only [hfc] at hh ⊢
    cases hft : firstTruncated content with
    | some g =>
      simp only [hft] at hh ⊢
      injection hh with hh2
      rw [hh2]
    | none =>
      rw [hft] at hh
      exact absurd hh (by simp)

theorem completeness_predicate_witness :
    (extract_html "a ```html\n<html><p>hi</p></HTML>\n``` b".data).1 =
      some "<html><p>hi</p></HTML>".data ∧
    (extract_html "a ```html\n<html><p>hi</p></HTML>\n``` b".data).2 =
      isCompleteHtml "<html><p>hi</p></HTML>".data :=
  ⟨by decide,
   completeness_predicate "a ```html\n<html><p>hi</p></HTML>\n``` b".data
     "<html><p>hi</p></HTML>".data (by decide)⟩
